import Mathlib

/-!
Verification of the devonthink-plus MCP server (`src/server.js`).

The development shallowly embeds the JavaScript of `server.js`:
* plain text is modelled as `List Char` (JS string indexing is by code unit;
  the claims only speak about character counts, so a character list is the
  faithful sequence abstraction),
* JS `String.prototype.substring` is `jsSubstring` with full clamp/swap
  semantics,
* the falsy-default idiom `Number(x) || d` is `jsNumberOr` (NaN inputs are not
  representable over `Int`; numeric arguments are),
* records of the external DEVONthink application are `DTRecord` values; a
  `plainText` of `none` models an extraction that throws or returns a falsy
  value, which the scripts convert to the empty string,
* the filesystem visible to the script runners is a list of
  (path, contents) pairs; the external `osascript` run is abstracted by its
  outcome (success / non-zero exit / timeout).
-/

/-- JS `s.substring(a, b)`: clamp both indices into `[0, length]`, swap when
out of order, then slice. -/
def jsSubstring (s : List Char) (a b : Int) : List Char :=
  let len : Int := s.length
  let a2 := min (max a 0) len
  let b2 := min (max b 0) len
  let lo := min a2 b2
  let hi := max a2 b2
  (s.take hi.toNat).drop lo.toNat

/-- JS `Number(x) || d` on an optional numeric argument: an absent argument is
replaced by the declared default, and a (falsy) zero is also replaced. -/
def jsNumberOr (v : Option Int) (dflt : Int) : Int :=
  match v with
  | none => dflt
  | some x => if x = 0 then dflt else x

/-- JS `database || null` on an optional string argument: the empty string is
falsy and collapses to `null` (`none`). -/
def jsOrNull (v : Option String) : Option String :=
  match v with
  | none => none
  | some s => if s = "" then none else some s

/-- Truthiness of a possibly-`undefined` JS string (`undefined` and `""` are
falsy). -/
def jsTruthyOpt : Option String → Bool
  | none => false
  | some s => s ≠ ""

/-- JS `x.trim()` over a character list. -/
def jsTrimList (s : List Char) : List Char :=
  ((s.dropWhile Char.isWhitespace).reverse.dropWhile Char.isWhitespace).reverse

/-- JS `Math.round(x * 100) / 100` over exact rationals. -/
def jsRound2 (x : Rat) : Rat :=
  ((x * 100 + 1/2).floor : Rat) / 100

/-- One MCP content block, as produced by the handlers in `server.js`. -/
structure ContentBlock where
  type : String
  text : String
  deriving Repr, DecidableEq

/-- A tool response: content blocks plus the (defaulted-to-false) `isError`
flag. -/
structure ToolResponse where
  content : List ContentBlock
  isError : Bool
  deriving Repr, DecidableEq

/-- A DEVONthink record as seen through the JXA scripting interface.
`plainText = none` models `plainText()` throwing or returning a falsy value. -/
structure DTRecord where
  name : String
  uuid : String
  location : String
  dbName : String
  score : Rat
  kind : String
  plainText : Option (List Char)
  deriving Repr, DecidableEq

/-- `try { pt = r.plainText() || ''; } catch (e) {}` with `pt` initialised to
the empty string. -/
def jsExtractText (pt : Option (List Char)) : List Char := pt.getD []

/-- The JSON object built by the `dt_get_content_chunked` JXA script
(`server.js` lines 236–250), minus the record-identity fields. -/
structure ChunkInfo where
  content : List Char
  offset : Int
  chunk_length : Nat
  total_chars : Nat
  has_more : Bool
  next_offset : Int
  deriving Repr, DecidableEq

/-- Pagination arithmetic of the chunked-read script:
`chunk = pt.substring(offset, offset + chunkSize)`,
`nextOff = offset + chunk.length`, `has_more = nextOff < total`. -/
def mkChunkInfo (pt : List Char) (offset chunkSize : Int) : ChunkInfo :=
  let chunk := jsSubstring pt offset (offset + chunkSize)
  let nextOff : Int := offset + chunk.length
  { content := chunk
    offset := offset
    chunk_length := chunk.length
    total_chars := pt.length
    has_more := decide (nextOff < (pt.length : Int))
    next_offset := nextOff }

theorem jsSubstring_of_le (s : List Char) (a l : Nat) (h : a ≤ s.length) :
    jsSubstring s a (a + (l : Int)) = (s.drop a).take l := by
  simp only [jsSubstring]
  have ha : min (max (a : Int) 0) ((s.length : Nat) : Int) = (a : Int) := by omega
  have hb : min (max ((a : Int) + (l : Int)) 0) ((s.length : Nat) : Int)
      = min ((a : Int) + l) ((s.length : Nat) : Int) := by omega
  rw [ha, hb]
  have hlo : min (a : Int) (min ((a : Int) + l) ((s.length : Nat) : Int)) = (a : Int) := by
    omega
  have hhi : max (a : Int) (min ((a : Int) + l) ((s.length : Nat) : Int))
      = min ((a : Int) + l) ((s.length : Nat) : Int) := by omega
  rw [hlo, hhi]
  have htn : (min ((a : Int) + l) ((s.length : Nat) : Int)).toNat = min (a + l) s.length := by
    omega
  have han : ((a : Int)).toNat = a := by omega
  rw [htn, han]
  have hta : s.take (min (a + l) s.length) = s.take (a + l) := by
    rcases Nat.le_total (a + l) s.length with h1 | h1
    · rw [Nat.min_eq_left h1]
    · rw [Nat.min_eq_right h1, List.take_length, List.take_of_length_le h1]
  rw [hta, List.take_drop]

theorem mkChunkInfo_content (pt : List Char) (a l : Nat) (h : a ≤ pt.length) :
    (mkChunkInfo pt a l).content = (pt.drop a).take l := by
  simp only [mkChunkInfo]
  exact jsSubstring_of_le pt a l h

theorem mkChunkInfo_chunk_length (pt : List Char) (a l : Nat) (h : a ≤ pt.length) :
    (mkChunkInfo pt a l).chunk_length = min l (pt.length - a) := by
  have hc : (mkChunkInfo pt a l).chunk_length = ((pt.drop a).take l).length := by
    simp only [mkChunkInfo]
    rw [jsSubstring_of_le pt a l h]
  rw [hc, List.length_take, List.length_drop]

theorem mkChunkInfo_next_offset (pt : List Char) (offset chunkSize : Int) :
    (mkChunkInfo pt offset chunkSize).next_offset
      = offset + ((mkChunkInfo pt offset chunkSize).chunk_length : Int) := rfl

theorem mkChunkInfo_has_more (pt : List Char) (offset chunkSize : Int) :
    (mkChunkInfo pt offset chunkSize).has_more
      = decide ((mkChunkInfo pt offset chunkSize).next_offset
          < ((mkChunkInfo pt offset chunkSize).total_chars : Int)) := rfl

/-- The client-side pagination walk the spec describes: call the chunked read
at offset 0, then keep re-invoking it at the returned `next_offset` while the
returned page has `has_more`, concatenating the `content` fields.  `fuel`
bounds the number of calls so the walk is total even for a degenerate
`chunkSize`. -/
def walkChunks (pt : List Char) (chunkSize : Int) : Nat → Nat → List Char
  | 0, _ => []
  | fuel + 1, offset =>
    let p := mkChunkInfo pt offset chunkSize
    if p.has_more then p.content ++ walkChunks pt chunkSize fuel p.next_offset.toNat
    else p.content

theorem walkChunks_drop (pt : List Char) (limit : Nat) (hl : 0 < limit) :
    ∀ fuel offset, offset ≤ pt.length → pt.length - offset < fuel →
      walkChunks pt limit fuel offset = pt.drop offset := by
  intro fuel
  induction fuel with
  | zero => intro offset _ hf; omega
  | succ n ih =>
    intro offset ho hf
    have hcontent := mkChunkInfo_content pt offset limit ho
    have hclen := mkChunkInfo_chunk_length pt offset limit ho
    simp only [walkChunks]
    by_cases hm : (mkChunkInfo pt offset limit).has_more = true
    · rw [if_pos hm]
      have hlt : (mkChunkInfo pt offset limit).next_offset
          < ((mkChunkInfo pt offset limit).total_chars : Int) := by
        have := mkChunkInfo_has_more pt offset limit
        rw [hm] at this
        exact of_decide_eq_true this.symm
      have htot : (mkChunkInfo pt offset limit).total_chars = pt.length := rfl
      rw [mkChunkInfo_next_offset, htot, hclen] at hlt
      -- `offset + min limit (pt.length - offset) < pt.length` forces the chunk
      -- to be full-sized: `min limit (pt.length - offset) = limit`.
      have hmin : min limit (pt.length - offset) = limit := by omega
      have hoff' : (mkChunkInfo pt offset limit).next_offset.toNat = offset + limit := by
        rw [mkChunkInfo_next_offset, hclen, hmin]
        omega
      have hle' : offset + limit ≤ pt.length := by omega
      have hfuel' : pt.length - (offset + limit) < n := by omega
      rw [hoff', ih (offset + limit) hle' hfuel', hcontent]
      rw [← List.drop_drop]
      exact List.take_append_drop limit (pt.drop offset)
    · rw [if_neg hm]
      have hge : ¬ ((mkChunkInfo pt offset limit).next_offset
          < ((mkChunkInfo pt offset limit).total_chars : Int)) := by
        intro hcon
        apply hm
        rw [mkChunkInfo_has_more]
        exact decide_eq_true hcon
      have htot : (mkChunkInfo pt offset limit).total_chars = pt.length := rfl
      rw [mkChunkInfo_next_offset, htot, hclen] at hge
      have hlen : pt.length - offset ≤ limit := by omega
      rw [hcontent]
      exact List.take_of_length_le (by rw [List.length_drop]; exact hlen)

/-- The record-identity fields of the chunked-read script's JSON object,
together with its pagination fields (`ChunkInfo`). -/
structure ChunkData where
  name : String
  uuid : String
  kind : String
  info : ChunkInfo
  deriving Repr, DecidableEq

/-- The `dt_get_content_chunked` JXA script (lines 224–251): resolve the uuid,
throw `Record not found` when resolution fails, otherwise extract the plain
text (empty on extraction failure) and build the pagination object.  `lookup`
stands for DEVONthink's `getRecordWithUuid`. -/
def chunkScript (lookup : String → Option DTRecord) (uuid : String)
    (offset chunkSize : Int) : Except String ChunkData :=
  match lookup uuid with
  | none => Except.error ("Record not found: " ++ uuid)
  | some r =>
      Except.ok
        { name := r.name, uuid := r.uuid, kind := r.kind
          info := mkChunkInfo (jsExtractText r.plainText) offset chunkSize }

/-- The handler's rendering of the parsed chunk JSON (lines 255–261). -/
def renderChunk (d : ChunkData) : String :=
  let range := "chars " ++ toString d.info.offset ++ "–"
    ++ toString (d.info.offset + (d.info.chunk_length : Int)) ++ " of "
    ++ toString d.info.total_chars
  let more := if d.info.has_more
    then " | ▶ more available — use offset: " ++ toString d.info.next_offset
    else " | ✓ end of document"
  "**" ++ d.name ++ "** [" ++ d.kind ++ "] (" ++ range ++ more ++ ")\n\n"
    ++ String.mk d.info.content

/-- `getContentChunked` (lines 220–262): apply the `Number(x) || default`
coercions to the arguments, run the script, render.  A thrown script failure
is an `Except.error` that propagates to the dispatcher. -/
def getContentChunked (lookup : String → Option DTRecord) (uuid : String)
    (offset limit : Option Int) : Except String ToolResponse :=
  (chunkScript lookup uuid (jsNumberOr offset 0) (jsNumberOr limit 4000)).map
    (fun d => { content := [{ type := "text", text := renderChunk d }], isError := false })

/-- Top-level `CallToolRequestSchema` dispatch (lines 149–159): a handler
outcome that is a thrown failure is converted into a single error-flagged
text block `Error: <message>`; a normal outcome is returned as-is. -/
def dispatchResult (h : Except String ToolResponse) : ToolResponse :=
  match h with
  | Except.ok r => r
  | Except.error msg =>
      { content := [{ type := "text", text := "Error: " ++ msg }], isError := true }

/-- JS `if (dbFilter && r.database().name() !== dbFilter) continue;` —
a record is skipped exactly when the filter is truthy and the names differ. -/
def skipByFilter (dbFilter : Option String) (r : DTRecord) : Bool :=
  match dbFilter with
  | none => false
  | some d => r.dbName ≠ d

/-- One entry of the search script's `results` array (lines 190–198). -/
structure SearchResult where
  name : String
  uuid : String
  location : String
  database : String
  score : Rat
  kind : String
  excerpt : List Char
  deriving Repr, DecidableEq

/-- The per-record body of the search loop (lines 183–198): extract plain
text (empty on failure), truncate to the excerpt length with a trailing
ellipsis when the text is longer, trim, round the score. -/
def mkSearchResult (r : DTRecord) (excerptLen : Int) : SearchResult :=
  let pt := jsExtractText r.plainText
  let excerpt := if (pt.length : Int) > excerptLen
    then jsSubstring pt 0 excerptLen ++ ['…']
    else pt
  { name := r.name, uuid := r.uuid, location := r.location
    database := r.dbName, score := jsRound2 r.score, kind := r.kind
    excerpt := jsTrimList excerpt }

/-- The search loop (lines 177–199): walk the raw result array while the
output is still shorter than the limit, skipping records rejected by the
database filter. The `Int` argument is the remaining budget
`limit - out.length`. -/
def searchCollect (dbFilter : Option String) (excerptLen : Int) :
    Int → List DTRecord → List SearchResult
  | _, [] => []
  | budget, r :: rest =>
    if 0 < budget then
      if skipByFilter dbFilter r then searchCollect dbFilter excerptLen budget rest
      else mkSearchResult r excerptLen :: searchCollect dbFilter excerptLen (budget - 1) rest
    else []

/-- The JSON object produced by the search script (line 201). -/
structure SearchData where
  total : Nat
  returned : Nat
  results : List SearchResult
  deriving Repr, DecidableEq

/-- `const safeLimit = Math.min(Number(limit) || 10, 50);` (line 163). -/
def searchSafeLimit (limit : Option Int) : Int := min (jsNumberOr limit 10) 50

/-- The search JXA script (lines 167–202): a global search (its raw result
array is the `records` parameter), the collection loop, and the summary
object with `total = raw.length`. -/
def searchScript (records : List DTRecord) (database : Option String)
    (safeLimit safeExcerpt : Int) : SearchData :=
  let out := searchCollect (jsOrNull database) safeExcerpt safeLimit records
  { total := records.length, returned := out.length, results := out }

/-- Header of the rendered search response (line 206). -/
def searchHeader (total returned : Nat) : String :=
  "Found **" ++ toString total ++ "** results (showing " ++ toString returned ++ "):\n\n"

/-- Per-result text block of the rendered search response (lines 207–214).
Score formatting of JS numerals is abstracted by `toString` on the exact
rational. -/
def renderSearchResult (r : SearchResult) : String :=
  "### " ++ r.name ++ "\n"
    ++ "- **UUID**: `" ++ r.uuid ++ "`\n"
    ++ "- **Location**: " ++ r.database ++ " → " ++ r.location ++ "\n"
    ++ "- **Type**: " ++ r.kind ++ " | **Score**: " ++ toString r.score ++ "\n"
    ++ (if r.excerpt ≠ [] then "\n" ++ String.mk r.excerpt ++ "\n" else "")
    ++ "\n---\n\n"

/-- Full rendered search response text. -/
def renderSearch (d : SearchData) : String :=
  searchHeader d.total d.returned ++ String.join (d.results.map renderSearchResult)

/-- `searchWithExcerpts` (lines 162–217). -/
def searchWithExcerpts (records : List DTRecord) (database : Option String)
    (limit excerpt_chars : Option Int) : ToolResponse :=
  let data := searchScript records database (searchSafeLimit limit)
    (jsNumberOr excerpt_chars 600)
  { content := [{ type := "text", text := renderSearch data }], isError := false }

/-- JS `s.split(sep)` for a nonempty separator, over character lists: scan
left to right, cutting at each (non-overlapping) occurrence of `sep`.  The
fuel argument makes the recursion structural; every step consumes at least
one character, so `length + 1` fuel always suffices. -/
def jsSplitFuel (sep : List Char) : Nat → List Char → List (List Char)
  | 0, s => [s]
  | fuel + 1, s =>
    match s with
    | [] => [[]]
    | c :: rest =>
      if sep.isPrefixOf (c :: rest) then
        [] :: jsSplitFuel sep fuel ((c :: rest).drop sep.length)
      else
        match jsSplitFuel sep fuel rest with
        | [] => [[c]]
        | f :: fs => (c :: f) :: fs

/-- JS `s.split(sep)` (nonempty `sep`). -/
def jsSplitList (sep s : List Char) : List (List Char) := jsSplitFuel sep (s.length + 1) s

/-- One parsed navigation record (lines 300–303); a missing field of the
destructuring `const [uuid, name, kind] = line.split('|||')` is `none`
(JS `undefined`). -/
structure GroupChild where
  uuid : Option String
  name : Option String
  kind : Option String
  deriving Repr, DecidableEq

/-- The navigation-output normalizer (lines 297–304): split the raw output on
the carriage return, drop falsy (empty) fragments, split each record on the
exact token `|||`, trim each present field, and keep only records whose
trimmed identity and name are truthy. -/
def parseNavOutput (s : List Char) : List GroupChild :=
  (((jsSplitList ['\r'] s).filter (fun l => l ≠ [])).map (fun line =>
    let parts := (jsSplitList "|||".toList line).map (fun f => String.mk (jsTrimList f))
    { uuid := parts[0]?, name := parts[1]?, kind := parts[2]? : GroupChild })).filter
    (fun i => jsTruthyOpt i.uuid && jsTruthyOpt i.name)

/-- A direct child of the navigated group, as the AppleScript loop sees it. -/
structure NavChild where
  uuid : String
  name : String
  kind : String
  deriving Repr, DecidableEq

/-- The AppleScript navigation loop (lines 276–286): walk the children, exit
once `counter >= safeMaxDocs`, skip container kinds, and append
`uuid|||name|||kind` followed by the AppleScript `return` character for each
kept child. The `Int` argument is the remaining budget
`safeMaxDocs - counter`. -/
def navListOutput : List NavChild → Int → List Char
  | [], _ => []
  | k :: rest, remaining =>
    if remaining ≤ 0 then []
    else if k.kind ≠ "group" && k.kind ≠ "smart group" then
      k.uuid.toList ++ "|||".toList ++ k.name.toList ++ "|||".toList ++ k.kind.toList ++ ['\r']
        ++ navListOutput rest (remaining - 1)
    else navListOutput rest remaining

/-- `const safeMaxDocs = Math.min(Number(max_docs) || 20, 50);` (line 267). -/
def groupSafeMaxDocs (max_docs : Option Int) : Int := min (jsNumberOr max_docs 20) 50

/-- The phase-2 batch JXA script (lines 312–326): for each uuid, resolve it,
extract plain text (empty when the record is missing or extraction fails),
and record the first `maxChars` characters, trimmed, keyed by the uuid. -/
def batchPlainText (lookup : String → Option DTRecord) (maxChars : Int)
    (uuids : List String) : List (String × List Char) :=
  uuids.map (fun u =>
    let pt := match lookup u with
      | none => []
      | some r => jsExtractText r.plainText
    (u, jsTrimList (jsSubstring pt 0 maxChars)))

/-- JS template interpolation of a possibly-`undefined` string. -/
def renderOptField (o : Option String) : String := o.getD "undefined"

/-- Per-child block of the rendered group snapshot (lines 332–338). -/
def renderGroupItem (contentMap : List (String × List Char)) (item : GroupChild) : String :=
  let content := (contentMap.lookup (renderOptField item.uuid)).getD []
  "### " ++ renderOptField item.name ++ " [" ++ renderOptField item.kind ++ "]\n"
    ++ "UUID: `" ++ renderOptField item.uuid ++ "`\n"
    ++ (if content ≠ [] then "\n" ++ String.mk content ++ "\n" else "")
    ++ "\n---\n\n"

/-- Rendered group snapshot (lines 331–338). -/
def renderGroup (group_path database : String) (items : List GroupChild)
    (contentMap : List (String × List Char)) : String :=
  "**Group**: `" ++ group_path ++ "` in **" ++ database ++ "** — "
    ++ toString items.length ++ " documents\n\n"
    ++ String.join (items.map (renderGroupItem contentMap))

/-- `getGroupContext` (lines 265–341).  `children` is what the navigated
group's `children` AppleScript property yields; `lookup` is phase 2's
`getRecordWithUuid`.  The returned boolean records whether the phase-2 batch
fetch was invoked (the second `runJXA` call, line 328).  `runAppleScript`
trims its captured output, so the phase-1 raw text is `String.trim`med before
the emptiness test and the normalizer. -/
def getGroupContext (children : List NavChild) (lookup : String → Option DTRecord)
    (group_path database : String) (max_chars_per_doc max_docs : Option Int) :
    ToolResponse × Bool :=
  let safeMaxChars := jsNumberOr max_chars_per_doc 800
  let safeMaxDocs := groupSafeMaxDocs max_docs
  let asResult := jsTrimList (navListOutput children safeMaxDocs)
  if asResult = [] then
    ({ content := [⟨"text", "Group \"" ++ group_path ++ "\" in \"" ++ database
          ++ "\" is empty or not found."⟩],
       isError := false }, false)
  else
    let items := parseNavOutput asResult
    if items.length = 0 then
      ({ content := [⟨"text", "No documents found in \"" ++ group_path ++ "\"."⟩],
         isError := false }, false)
    else
      let uuids := items.map (fun i => renderOptField i.uuid)
      let contentMap := batchPlainText lookup safeMaxChars uuids
      ({ content := [⟨"text", renderGroup group_path database items contentMap⟩],
         isError := false }, true)

/-- Outcome of the external `osascript` run: the captured standard output, or
a thrown non-zero-exit / timeout failure of `execFileSync`. -/
inductive ExecOutcome where
  | success (stdout : String)
  | processFailure (msg : String)
  | timeoutFailure (msg : String)
  deriving Repr, DecidableEq

/-- `execFileSync(...).trim()`: the successful output is trimmed; a failure
is the thrown error. -/
def execResult : ExecOutcome → Except String String
  | ExecOutcome.success out => Except.ok out.trim
  | ExecOutcome.processFailure m => Except.error m
  | ExecOutcome.timeoutFailure m => Except.error m

/-- Shared body of `runJXA`/`runAppleScript` (lines 24–48): write the script
body to the temp path, run the interpreter (abstracted by its outcome), and —
in the `finally` block reached on success, non-zero exit and timeout alike —
unlink the temp path.  The filesystem is a list of (path, contents) pairs. -/
def runScriptFile (outcome : ExecOutcome) (fs : List (String × String))
    (tmp script : String) : Except String String × List (String × String) :=
  let fs1 := (tmp, script) :: fs
  let res := execResult outcome
  let fs2 := fs1.filter (fun f => f.1 ≠ tmp)
  (res, fs2)

/-- `runJXA` (lines 24–35); `now` is the `Date.now()` value naming the temp
file. -/
def runJXA (outcome : ExecOutcome) (fs : List (String × String))
    (now : Nat) (script : String) : Except String String × List (String × String) :=
  runScriptFile outcome fs ("dt-jxa-" ++ toString now ++ ".js") script

/-- `runAppleScript` (lines 37–48). -/
def runAppleScript (outcome : ExecOutcome) (fs : List (String × String))
    (now : Nat) (script : String) : Except String String × List (String × String) :=
  runScriptFile outcome fs ("dt-as-" ++ toString now ++ ".applescript") script

theorem searchCollect_database_eq (d : String) (e : Int) :
    ∀ (rs : List DTRecord) (budget : Int) (res : SearchResult),
      res ∈ searchCollect (some d) e budget rs → res.database = d := by
  intro rs
  induction rs with
  | nil => intro budget res h; simp [searchCollect] at h
  | cons r rest ih =>
    intro budget res h
    simp only [searchCollect] at h
    by_cases hb : (0 : Int) < budget
    · rw [if_pos hb] at h
      by_cases hs : skipByFilter (some d) r = true
      · rw [if_pos hs] at h
        exact ih budget res h
      · rw [if_neg hs] at h
        rcases List.mem_cons.mp h with hh | hh
        · have hdb : r.dbName = d := by
            simpa [skipByFilter] using hs
          rw [hh]
          exact hdb
        · exact ih (budget - 1) res hh
    · rw [if_neg hb] at h
      simp at h

theorem searchCollect_length_le (db : Option String) (e : Int) :
    ∀ (rs : List DTRecord) (budget : Int),
      (searchCollect db e budget rs).length ≤ budget.toNat := by
  intro rs
  induction rs with
  | nil => intro budget; simp [searchCollect]
  | cons r rest ih =>
    intro budget
    simp only [searchCollect]
    by_cases hb : (0 : Int) < budget
    · rw [if_pos hb]
      by_cases hs : skipByFilter db r = true
      · rw [if_pos hs]
        exact ih budget
      · rw [if_neg hs]
        have := ih (budget - 1)
        simp only [List.length_cons]
        omega
    · rw [if_neg hb]
      simp

theorem runScriptFile_fs (outcome : ExecOutcome) (fs : List (String × String))
    (tmp script : String) :
    (runScriptFile outcome fs tmp script).2 = fs.filter (fun f => f.1 ≠ tmp) := by
  simp [runScriptFile]

theorem filter_fst_ne_all (fs : List (String × String)) (tmp : String) :
    ((fs.filter (fun f => f.1 ≠ tmp)).all (fun f => f.1 ≠ tmp)) = true := by
  rw [List.all_eq_true]
  intro x hx
  exact (List.mem_filter.mp hx).2

theorem mkChunkInfo_nil (off size : Int) (h : 0 ≤ off) :
    mkChunkInfo [] off size = ⟨[], off, 0, 0, false, off⟩ := by
  have hsub : jsSubstring [] off (off + size) = [] := by simp [jsSubstring]
  simp only [mkChunkInfo, hsub, ChunkInfo.mk.injEq, List.length_nil, Nat.cast_zero, add_zero]
  simp only [true_and, and_true]
  exact decide_eq_false (by omega)

/-- C1: a chunked read with numeric `0 ≤ offset ≤ |text|` and `limit > 0`
satisfies `chunk_length = min(limit, total_chars - offset)`,
`next_offset = offset + chunk_length`, `has_more = (next_offset < total_chars)`,
`content` is the substring of the text at `offset` of length `chunk_length`,
and `total_chars` is the full text length (and these numeric arguments pass
through the handler's `Number(x) || default` coercion unchanged). -/
theorem chunk_page_invariants (pt : List Char) (offset limit : Nat)
    (h1 : offset ≤ pt.length) (h2 : 0 < limit) :
    jsNumberOr (some (offset : Int)) 0 = (offset : Int) ∧
    jsNumberOr (some (limit : Int)) 4000 = (limit : Int) ∧
    (mkChunkInfo pt offset limit).chunk_length = min limit (pt.length - offset) ∧
    (mkChunkInfo pt offset limit).next_offset
      = (offset : Int) + ((mkChunkInfo pt offset limit).chunk_length : Int) ∧
    (mkChunkInfo pt offset limit).has_more
      = decide ((mkChunkInfo pt offset limit).next_offset
          < (((mkChunkInfo pt offset limit).total_chars : Nat) : Int)) ∧
    (mkChunkInfo pt offset limit).content
      = (pt.drop offset).take (mkChunkInfo pt offset limit).chunk_length ∧
    (mkChunkInfo pt offset limit).total_chars = pt.length := by
  refine ⟨?_, ?_, mkChunkInfo_chunk_length pt offset limit h1, rfl, rfl, ?_, rfl⟩
  · simp only [jsNumberOr]
    split <;> omega
  · simp only [jsNumberOr]
    split <;> omega
  · rw [mkChunkInfo_content pt offset limit h1, mkChunkInfo_chunk_length pt offset limit h1,
      ← List.length_drop, ← List.take_take, List.take_length]

/-- Witness for C1 at `pt = "hello"`, `offset = 1`, `limit = 2`. -/
theorem chunk_page_invariants_witness :
    (1 : Nat) ≤ "hello".toList.length ∧ (0 : Nat) < 2 ∧
    (jsNumberOr (some (((1 : Nat)) : Int)) 0 = (((1 : Nat)) : Int) ∧
     jsNumberOr (some (((2 : Nat)) : Int)) 4000 = (((2 : Nat)) : Int) ∧
     (mkChunkInfo "hello".toList ((1 : Nat)) ((2 : Nat))).chunk_length
       = min 2 ("hello".toList.length - 1) ∧
     (mkChunkInfo "hello".toList ((1 : Nat)) ((2 : Nat))).next_offset
       = (((1 : Nat)) : Int)
         + ((mkChunkInfo "hello".toList ((1 : Nat)) ((2 : Nat))).chunk_length : Int) ∧
     (mkChunkInfo "hello".toList ((1 : Nat)) ((2 : Nat))).has_more
       = decide ((mkChunkInfo "hello".toList ((1 : Nat)) ((2 : Nat))).next_offset
           < (((mkChunkInfo "hello".toList ((1 : Nat)) ((2 : Nat))).total_chars : Nat) : Int)) ∧
     (mkChunkInfo "hello".toList ((1 : Nat)) ((2 : Nat))).content
       = ("hello".toList.drop 1).take
           (mkChunkInfo "hello".toList ((1 : Nat)) ((2 : Nat))).chunk_length ∧
     (mkChunkInfo "hello".toList ((1 : Nat)) ((2 : Nat))).total_chars
       = "hello".toList.length) :=
  ⟨by decide, by decide, chunk_page_invariants "hello".toList 1 2 (by decide) (by decide)⟩

/-- C2: for every text and every fixed `limit > 0`, chaining the chunked read
via `next_offset` from offset 0 until `has_more = false` concatenates to
exactly the full text (no gaps, no overlaps). -/
theorem chunk_walk_roundtrip (pt : List Char) (limit : Nat) (h : 0 < limit) :
    walkChunks pt limit (pt.length + 1) 0 = pt := by
  have h0 := walkChunks_drop pt limit h (pt.length + 1) 0 (Nat.zero_le _) (by omega)
  rw [h0, List.drop_zero]

/-- Witness for C2 at `pt = "hello world"`, `limit = 3`. -/
theorem chunk_walk_roundtrip_witness :
    (0 : Nat) < 3 ∧
    walkChunks "hello world".toList ((3 : Nat)) ("hello world".toList.length + 1) 0
      = "hello world".toList :=
  ⟨by decide, chunk_walk_roundtrip "hello world".toList 3 (by decide)⟩

/-- C3: the navigation normalizer splits on the carriage return (not the line
feed), splits records on the exact token `|||`, trims fields, drops the empty
fragment left by a trailing terminator, and drops records whose identity or
name is missing after trimming; the claim's raw output parses to exactly the
two GroupChild entries with the comma inside "Doc,Two" intact. -/
theorem nav_normalizer_behaviour :
    parseNavOutput ("U1|||Doc One|||markdown\rU2|||Doc,Two|||PDF document\r".toList)
      = [⟨some "U1", some "Doc One", some "markdown"⟩,
         ⟨some "U2", some "Doc,Two", some "PDF document"⟩] ∧
    parseNavOutput ("U1|||Doc One|||markdown\nU2|||Doc,Two|||PDF document\n".toList)
      = [⟨some "U1", some "Doc One", some "markdown\nU2"⟩] ∧
    parseNavOutput ("|||Name Only|||kind\rU9||| |||kind".toList) = [] ∧
    ∀ s, ((parseNavOutput s).all fun i => jsTruthyOpt i.uuid && jsTruthyOpt i.name) = true := by
  refine ⟨by decide, by decide, by decide, ?_⟩
  intro s
  rw [List.all_eq_true]
  intro i hi
  exact (List.mem_filter.mp hi).2

/-- C4: whenever a (nonempty) database name is requested, every result kept by
the search loop has exactly that resolved database name. -/
theorem search_database_filter (records : List DTRecord) (db : String)
    (safeLimit safeExcerpt : Int) (hdb : db ≠ "")
    (res : SearchResult)
    (hres : res ∈ (searchScript records (some db) safeLimit safeExcerpt).results) :
    res.database = db := by
  have hn : jsOrNull (some db) = some db := by simp [jsOrNull, hdb]
  have hmem : res ∈ searchCollect (jsOrNull (some db)) safeExcerpt safeLimit records := hres
  rw [hn] at hmem
  exact searchCollect_database_eq db safeExcerpt records safeLimit res hmem

/-- Witness for C4: a one-record search filtered to database "A". -/
theorem search_database_filter_witness :
    ("A" : String) ≠ "" ∧
    mkSearchResult ⟨"N", "U", "L", "A", 0, "k", none⟩ 600
      ∈ (searchScript [⟨"N", "U", "L", "A", 0, "k", none⟩] (some "A") 10 600).results ∧
    (mkSearchResult ⟨"N", "U", "L", "A", 0, "k", none⟩ 600).database = "A" :=
  ⟨by decide,
   by
     have h : (searchScript [⟨"N", "U", "L", "A", 0, "k", none⟩] (some "A") 10 600).results
         = [mkSearchResult ⟨"N", "U", "L", "A", 0, "k", none⟩ 600] := rfl
     rw [h]
     exact List.mem_singleton_self _,
   search_database_filter [⟨"N", "U", "L", "A", 0, "k", none⟩] "A" 10 600 (by decide)
     (mkSearchResult ⟨"N", "U", "L", "A", 0, "k", none⟩ 600)
     (by
       have h : (searchScript [⟨"N", "U", "L", "A", 0, "k", none⟩] (some "A") 10 600).results
           = [mkSearchResult ⟨"N", "U", "L", "A", 0, "k", none⟩ 600] := rfl
       rw [h]
       exact List.mem_singleton_self _)⟩

/-- C5: the effective search limit is capped at 50 (9999 clamps to 50, absent
defaults to 10, the result list never exceeds 50 entries) and the group
context's effective max_docs is capped at 50 (9999 clamps to 50, absent
defaults to 20). -/
theorem limit_caps :
    searchSafeLimit (some 9999) = 50 ∧
    searchSafeLimit none = 10 ∧
    (∀ l, searchSafeLimit l ≤ 50) ∧
    (∀ (records : List DTRecord) (database : Option String) (limit excerpt_chars : Option Int),
      (searchScript records database (searchSafeLimit limit)
        (jsNumberOr excerpt_chars 600)).results.length ≤ 50) ∧
    groupSafeMaxDocs (some 9999) = 50 ∧
    groupSafeMaxDocs none = 20 ∧
    (∀ m, groupSafeMaxDocs m ≤ 50) := by
  refine ⟨by decide, by decide, ?_, ?_, by decide, by decide, ?_⟩
  · intro l
    exact min_le_right _ 50
  · intro records database limit excerpt_chars
    have h1 := searchCollect_length_le (jsOrNull database) (jsNumberOr excerpt_chars 600)
      records (searchSafeLimit limit)
    have h2 : searchSafeLimit limit ≤ 50 := min_le_right _ 50
    have h3 : (searchSafeLimit limit).toNat ≤ 50 := by omega
    exact le_trans h1 h3
  · intro m
    exact min_le_right _ 50

/-- C6: the top-level dispatch converts every thrown failure into a single
error-flagged text block containing the failure message; in particular a
chunked read on an unresolvable identity surfaces as the single
`Error: Record not found: <uuid>` block. -/
theorem dispatch_error_block :
    (∀ e, dispatchResult (Except.error e)
        = { content := [⟨"text", "Error: " ++ e⟩], isError := true }) ∧
    (∀ e, (dispatchResult (Except.error e)).content.length = 1) ∧
    (∀ (lookup : String → Option DTRecord) (uuid : String) (offset limit : Option Int),
      lookup uuid = none →
        dispatchResult (getContentChunked lookup uuid offset limit)
          = { content := [⟨"text", "Error: " ++ ("Record not found: " ++ uuid)⟩],
              isError := true }) := by
  refine ⟨fun e => rfl, fun e => rfl, ?_⟩
  intro lookup uuid offset limit hl
  simp [getContentChunked, chunkScript, hl, dispatchResult, Except.map]

/-- Witness for C6: an unknown identity produces the single error block. -/
theorem dispatch_error_block_witness :
    ((fun _ : String => (none : Option DTRecord)) "X" = none) ∧
    dispatchResult (getContentChunked (fun _ => none) "X" none none)
      = { content := [⟨"text", "Error: " ++ ("Record not found: " ++ "X")⟩],
          isError := true } :=
  ⟨rfl, dispatch_error_block.2.2 (fun _ => none) "X" none none rfl⟩

/-- C7 counterexample: a call whose phase-1 navigation yields a nonempty raw
output in which no record survives the identity-and-name filter (here a child
whose name is a single space) returns the `No documents found` message, which
is not the claimed "empty or not found" message. -/
theorem group_context_zero_children_counterexample :
    parseNavOutput (jsTrimList (navListOutput [⟨"U1", " ", "markdown"⟩]
        (groupSafeMaxDocs none))) = [] ∧
    getGroupContext [⟨"U1", " ", "markdown"⟩] (fun _ => none) "p" "d" none none
      = ({ content := [⟨"text", "No documents found in \"p\"."⟩], isError := false }, false) ∧
    (getGroupContext [⟨"U1", " ", "markdown"⟩] (fun _ => none) "p" "d" none none).1
      ≠ { content := [⟨"text", "Group \"p\" in \"d\" is empty or not found."⟩],
          isError := false } := by
  refine ⟨by decide, by decide, by decide⟩

/-- C7 amended: when phase-1 navigation yields zero usable children, the
handler performs no phase-2 batch fetch; it returns the "empty or not found"
message when the raw output is empty, and the "No documents found" message
when the output is nonempty but no record survives the identity-and-name
filter. -/
theorem group_context_zero_children_amended (children : List NavChild)
    (lookup : String → Option DTRecord) (group_path database : String)
    (max_chars_per_doc max_docs : Option Int) :
    (jsTrimList (navListOutput children (groupSafeMaxDocs max_docs)) = [] →
      getGroupContext children lookup group_path database max_chars_per_doc max_docs
        = ({ content := [⟨"text", "Group \"" ++ group_path ++ "\" in \"" ++ database
              ++ "\" is empty or not found."⟩], isError := false }, false)) ∧
    (jsTrimList (navListOutput children (groupSafeMaxDocs max_docs)) ≠ [] →
      parseNavOutput (jsTrimList (navListOutput children (groupSafeMaxDocs max_docs))) = [] →
      getGroupContext children lookup group_path database max_chars_per_doc max_docs
        = ({ content := [⟨"text", "No documents found in \"" ++ group_path ++ "\"."⟩],
             isError := false }, false)) := by
  constructor
  · intro h
    simp only [getGroupContext]
    rw [if_pos h]
  · intro h1 h2
    simp only [getGroupContext]
    rw [if_neg h1, h2]
    simp

/-- Witness for C7 amended: a group of only containers takes the empty branch;
a whitespace-named child takes the no-survivor branch. Neither invokes
phase 2. -/
theorem group_context_zero_children_amended_witness :
    jsTrimList (navListOutput [⟨"G", "g", "group"⟩] (groupSafeMaxDocs none)) = [] ∧
    getGroupContext [⟨"G", "g", "group"⟩] (fun _ => none) "p" "d" none none
      = ({ content := [⟨"text", "Group \"" ++ "p" ++ "\" in \"" ++ "d"
            ++ "\" is empty or not found."⟩], isError := false }, false) ∧
    jsTrimList (navListOutput [⟨"U1", " ", "markdown"⟩] (groupSafeMaxDocs none)) ≠ [] ∧
    parseNavOutput (jsTrimList (navListOutput [⟨"U1", " ", "markdown"⟩]
        (groupSafeMaxDocs none))) = [] ∧
    getGroupContext [⟨"U1", " ", "markdown"⟩] (fun _ => none) "p" "d" none none
      = ({ content := [⟨"text", "No documents found in \"" ++ "p" ++ "\"."⟩],
           isError := false }, false) :=
  ⟨by decide,
   (group_context_zero_children_amended [⟨"G", "g", "group"⟩] (fun _ => none)
     "p" "d" none none).1 (by decide),
   by decide, by decide,
   (group_context_zero_children_amended [⟨"U1", " ", "markdown"⟩] (fun _ => none)
     "p" "d" none none).2 (by decide) (by decide)⟩

/-- C8: each runner writes the script to its temp path and removes that path
on every exit path — success, non-zero exit and timeout alike — so the final
filesystem never retains the temp script; the execution outcome itself passes
through unchanged. -/
theorem temp_script_cleanup (outcome : ExecOutcome) (fs : List (String × String))
    (now : Nat) (script : String) :
    (runJXA outcome fs now script).2
      = fs.filter (fun f => f.1 ≠ "dt-jxa-" ++ toString now ++ ".js") ∧
    ((runJXA outcome fs now script).2.all
        (fun f => f.1 ≠ "dt-jxa-" ++ toString now ++ ".js")) = true ∧
    (runJXA outcome fs now script).1 = execResult outcome ∧
    (runAppleScript outcome fs now script).2
      = fs.filter (fun f => f.1 ≠ "dt-as-" ++ toString now ++ ".applescript") ∧
    ((runAppleScript outcome fs now script).2.all
        (fun f => f.1 ≠ "dt-as-" ++ toString now ++ ".applescript")) = true ∧
    (runAppleScript outcome fs now script).1 = execResult outcome := by
  refine ⟨runScriptFile_fs outcome fs _ script, ?_, rfl,
    runScriptFile_fs outcome fs _ script, ?_, rfl⟩
  · rw [show (runJXA outcome fs now script).2
        = fs.filter (fun f => f.1 ≠ "dt-jxa-" ++ toString now ++ ".js")
      from runScriptFile_fs outcome fs _ script]
    exact filter_fst_ne_all fs _
  · rw [show (runAppleScript outcome fs now script).2
        = fs.filter (fun f => f.1 ≠ "dt-as-" ++ toString now ++ ".applescript")
      from runScriptFile_fs outcome fs _ script]
    exact filter_fst_ne_all fs _

/-- C9: the reported total is the size of the global search result list,
computed before any database filtering, and shows up as such in the rendered
header; on a mixed-database example with a filter the total (2) differs from
the returned count (1). -/
theorem search_total_before_filter :
    (∀ (records : List DTRecord) (database : Option String) (safeLimit safeExcerpt : Int),
      (searchScript records database safeLimit safeExcerpt).total = records.length) ∧
    (∀ (records : List DTRecord) (database : Option String) (safeLimit safeExcerpt : Int),
      renderSearch (searchScript records database safeLimit safeExcerpt)
        = searchHeader records.length (searchScript records database safeLimit safeExcerpt).returned
          ++ String.join ((searchScript records database safeLimit safeExcerpt).results.map
              renderSearchResult)) ∧
    (searchScript [⟨"N1", "U1", "L", "A", 0, "k", none⟩, ⟨"N2", "U2", "L", "B", 0, "k", none⟩]
        (some "A") 10 600).total = 2 ∧
    (searchScript [⟨"N1", "U1", "L", "A", 0, "k", none⟩, ⟨"N2", "U2", "L", "B", 0, "k", none⟩]
        (some "A") 10 600).returned = 1 :=
  ⟨fun _ _ _ _ => rfl, fun _ _ _ _ => rfl, by decide, by decide⟩

/-- C10 counterexample: on a resolving record whose extraction throws
(`plainText` unavailable) and a call with `offset = -1`, the script returns a
page with `has_more = true` (since `-1 < 0`), not `has_more = false` as
claimed. -/
theorem empty_extraction_counterexample :
    chunkScript (fun _ => some ⟨"N", "X", "L", "D", 0, "k", none⟩) "X"
        (jsNumberOr (some (-1)) 0) (jsNumberOr none 4000)
      = Except.ok ⟨"N", "X", "k", ⟨[], -1, 0, 0, true, -1⟩⟩ ∧
    (mkChunkInfo [] (jsNumberOr (some (-1)) 0) (jsNumberOr none 4000)).has_more = true := by
  exact ⟨rfl, rfl⟩

/-- C10 amended: on a record that resolves but whose plain-text extraction
throws or yields nothing, a call whose effective offset is non-negative
returns a normal page with empty content, `total_chars = 0`,
`chunk_length = 0` and `has_more = false`, as a non-error response. -/
theorem empty_extraction_amended (lookup : String → Option DTRecord) (uuid : String)
    (r : DTRecord) (offset limit : Option Int)
    (hr : lookup uuid = some r)
    (hpt : r.plainText = none ∨ r.plainText = some [])
    (hoff : 0 ≤ jsNumberOr offset 0) :
    chunkScript lookup uuid (jsNumberOr offset 0) (jsNumberOr limit 4000)
      = Except.ok ⟨r.name, r.uuid, r.kind,
          ⟨[], jsNumberOr offset 0, 0, 0, false, jsNumberOr offset 0⟩⟩ ∧
    getContentChunked lookup uuid offset limit
      = Except.ok { content := [⟨"text", renderChunk ⟨r.name, r.uuid, r.kind,
                      ⟨[], jsNumberOr offset 0, 0, 0, false, jsNumberOr offset 0⟩⟩⟩],
                    isError := false } := by
  have hext : jsExtractText r.plainText = [] := by
    rcases hpt with h | h <;> simp [jsExtractText, h]
  constructor
  · simp only [chunkScript, hr, hext, mkChunkInfo_nil _ _ hoff]
  · simp only [getContentChunked, chunkScript, hr, hext, mkChunkInfo_nil _ _ hoff, Except.map]

/-- Witness for C10 amended at a throwing extraction with defaulted
arguments. -/
theorem empty_extraction_amended_witness :
    ((fun _ : String => some (⟨"N", "X", "L", "D", 0, "k", none⟩ : DTRecord)) "X"
        = some ⟨"N", "X", "L", "D", 0, "k", none⟩) ∧
    ((⟨"N", "X", "L", "D", 0, "k", none⟩ : DTRecord).plainText = none ∨
      (⟨"N", "X", "L", "D", 0, "k", none⟩ : DTRecord).plainText = some []) ∧
    0 ≤ jsNumberOr none 0 ∧
    chunkScript (fun _ => some ⟨"N", "X", "L", "D", 0, "k", none⟩) "X"
        (jsNumberOr none 0) (jsNumberOr none 4000)
      = Except.ok ⟨"N", "X", "k", ⟨[], jsNumberOr none 0, 0, 0, false, jsNumberOr none 0⟩⟩ ∧
    getContentChunked (fun _ => some ⟨"N", "X", "L", "D", 0, "k", none⟩) "X" none none
      = Except.ok { content := [⟨"text", renderChunk ⟨"N", "X", "k",
                      ⟨[], jsNumberOr none 0, 0, 0, false, jsNumberOr none 0⟩⟩⟩],
                    isError := false } :=
  ⟨rfl, Or.inl rfl, by decide,
   (empty_extraction_amended (fun _ => some ⟨"N", "X", "L", "D", 0, "k", none⟩) "X"
     ⟨"N", "X", "L", "D", 0, "k", none⟩ none none rfl (Or.inl rfl) (by decide)).1,
   (empty_extraction_amended (fun _ => some ⟨"N", "X", "L", "D", 0, "k", none⟩) "X"
     ⟨"N", "X", "L", "D", 0, "k", none⟩ none none rfl (Or.inl rfl) (by decide)).2⟩
